import Mathlib

/-!
Verification of the BookScout catalog store and recommendation engine.

The development shallowly embeds `src/app.py` (catalog store: `save_to_cache`,
`get_cached_book`) and `src/ml_engine.py` (`load_and_vectorize`,
`get_similar_books`).  The persisted CSV cache is modelled as
`Option (List Record)`: `none` is a missing backing file, `some rows` is an
existing file holding `rows` in persisted order.

Python string primitives (`str.lower`, `str.strip`, `str.split`) are
re-implemented over `List Char` by structural recursion so that every
definition is executable and kernel-reducible; they agree with the Python
semantics on the ASCII data handled here.

Floating-point numerics: the source computes cosine similarities of TF-IDF
rows with `sklearn`.  Every feature value in the source is nonnegative, and
the scores themselves are consumed only through comparisons (`argsort`) and
display rounding, so the embedding represents each cosine similarity by its
square, `(u.v)^2 / (|u|^2 |v|^2) : Rat`, an order- and equality-preserving
encoding on nonnegative reals.  The real-valued IDF weight
`ln((1+n)/(1+df)) + 1` and the Euclidean row normalisation of the TF-IDF
block — both irrational — are replaced by rational surrogates (noted at the
definitions) that preserve all structure the claims concern: which records
survive, matrix shapes, zero rows, nonnegativity, exact ties of identical
rows, and every categorical / title-matching behaviour.
-/

/-- Lower-case an ASCII letter, the character-level content of Python
`str.lower` on the ASCII data used throughout the cache. -/
def lowerChar (c : Char) : Char :=
  if 'A' ≤ c ∧ c ≤ 'Z' then Char.ofNat (c.toNat + 32) else c

/-- Whitespace as recognised by Python `str.strip()` (ASCII fragment). -/
def isPySpace (c : Char) : Bool :=
  c = ' ' ∨ c = '\t' ∨ c = '\n' ∨ c = '\r'

/-- Remove leading and trailing whitespace: Python `str.strip()`. -/
def stripList (l : List Char) : List Char :=
  ((l.dropWhile isPySpace).reverse.dropWhile isPySpace).reverse

/-- Python `s.lower()`. -/
def pyLower (s : String) : String :=
  ⟨s.data.map lowerChar⟩

/-- Python `s.strip()`. -/
def pyStrip (s : String) : String :=
  ⟨stripList s.data⟩

/-- Split on a single character, Python `s.split(sep)` for a one-character
separator: every occurrence of `sep` ends a field, empty fields included. -/
def splitCharAux (sep : Char) : List Char → List Char → List (List Char)
  | [], acc => [acc.reverse]
  | c :: rest, acc =>
    if c = sep then acc.reverse :: splitCharAux sep rest []
    else splitCharAux sep rest (c :: acc)

/-- Python `s.split(sep)` for a one-character separator, on `String`. -/
def pySplitChar (sep : Char) (s : String) : List String :=
  (splitCharAux sep s.data []).map String.mk

/-- Split on the literal two-character separator `", "`, Python
`s.split(', ')` as used by the category channel of the feature builder. -/
def splitCommaSpaceAux : List Char → List Char → List (List Char)
  | [], acc => [acc.reverse]
  | [c], acc => [(c :: acc).reverse]
  | c1 :: c2 :: rest, acc =>
    if c1 = ',' ∧ c2 = ' ' then acc.reverse :: splitCommaSpaceAux rest []
    else splitCommaSpaceAux (c2 :: rest) (c1 :: acc)

/-- Python `s.split(', ')`, on `String`. -/
def pySplitCommaSpace (s : String) : List String :=
  (splitCommaSpaceAux s.data []).map String.mk

/-- One catalog entry, the row shape of `cache/book_data.csv` produced by
`fetch_book_from_api` in `src/app.py`.  All fields are strings; a missing
CSV cell (pandas `NaN`) is modelled as `""`, matching the
`fillna('')` / empty-after-strip handling in `src/ml_engine.py`. -/
structure Record where
  title : String
  author : String
  description : String
  clean_description : String
  categories : String
  rating : String
deriving DecidableEq, Repr

/-- Default record used for in-range list indexing. -/
def emptyRecord : Record :=
  { title := "", author := "", description := "", clean_description := ""
    categories := "", rating := "" }

/-- Record at index `i` of the re-indexed frame, `df.at[i, ...]`. -/
def recAt (df : List Record) (i : ℕ) : Record :=
  df.getD i emptyRecord

/-- Embedding of `save_to_cache` (src/app.py lines 43-60): collect the
`.lower()`-cased titles already in the file, return the file unchanged when
the new book's `.lower()`-cased title is among them, and otherwise append
the book (creating the file when absent).  Note the source folds case but
does not strip whitespace at this gate. -/
def save_to_cache (file : Option (List Record)) (book : Record) : Option (List Record) :=
  let existing := (file.getD []).map (fun row => pyLower row.title)
  if pyLower book.title ∈ existing then file
  else some ((file.getD []) ++ [book])

/-- Embedding of `get_cached_book` (src/app.py lines 32-41): `none` when the
backing file is missing, otherwise the first row whose stripped, lower-cased
title equals the stripped, lower-cased query title. -/
def get_cached_book (file : Option (List Record)) (title : String) : Option Record :=
  match file with
  | none => none
  | some rows => rows.find? (fun row => pyLower (pyStrip row.title) == pyLower (pyStrip title))

/-- Records surviving the vectorizability filter of `load_and_vectorize`
(src/ml_engine.py line 21): `clean_description` non-null (a pandas `NaN`
is modelled as `""`) and nonempty after `str.strip()`. -/
def surviving (rows : List Record) : List Record :=
  rows.filter (fun r => pyStrip r.clean_description ≠ "")

/-- The `combined_text` column (src/ml_engine.py line 25):
`clean_description + ' ' + categories.lower()`. -/
def combined_text (r : Record) : String :=
  r.clean_description ++ " " ++ pyLower r.categories

/-- Word characters of sklearn's default ASCII token pattern `\w`
(the vectorizer lower-cases its input first, so letters are `a`-`z`). -/
def isWordChar (c : Char) : Bool :=
  ('a' ≤ c ∧ c ≤ 'z') ∨ ('0' ≤ c ∧ c ≤ '9') ∨ c = '_'

/-- Split a character list into the maximal runs of word characters. -/
def wordRunsAux : List Char → List Char → List (List Char)
  | [], acc => if acc.isEmpty then [] else [acc.reverse]
  | c :: rest, acc =>
    if isWordChar c then wordRunsAux rest (c :: acc)
    else if acc.isEmpty then wordRunsAux rest []
    else acc.reverse :: wordRunsAux rest []

/-- A compact stand-in for sklearn's frozen 318-word English stop list
(`stop_words='english'`, a third-party constant not part of this
repository).  Membership only decides which terms enter the TF-IDF
vocabulary; no claim depends on the exact list, and the concrete catalogs
used below avoid words whose stop-word status differs between this subset
and the full frozen list. -/
def stopWords : List String :=
  ["a", "about", "an", "and", "are", "as", "at", "be", "by", "for", "from",
   "has", "he", "her", "his", "in", "is", "it", "its", "of", "on", "she",
   "that", "the", "their", "this", "to", "was", "were", "will", "with"]

/-- Tokenisation of one document by sklearn's default analyzer: lower-case,
take maximal runs of word characters, keep tokens of length at least two
(token pattern `\w\w+`), then drop stop words. -/
def tokenize (s : String) : List String :=
  (((wordRunsAux (s.data.map lowerChar) []).filter (fun t => 2 ≤ t.length)).map
    String.mk).filter (fun t => t ∉ stopWords)

/-- Adjacent-pair bigrams, joined by a single space, built after stop-word
removal exactly as sklearn does for `ngram_range=(1,2)`. -/
def bigrams : List String → List String
  | a :: b :: rest => (a ++ " " ++ b) :: bigrams (b :: rest)
  | _ => []

/-- All terms (unigrams and bigrams) of one document. -/
def docTerms (s : String) : List String :=
  tokenize s ++ bigrams (tokenize s)

/-- Document frequency of a term over the corpus. -/
def docFreq (texts : List String) (t : String) : ℕ :=
  texts.countP (fun d => t ∈ docTerms d)

/-- Sort a list of strings lexicographically (sklearn stores its vocabulary
and binarizer classes in sorted order; only consistency of the column order
matters to any claim). -/
def sortStrings (l : List String) : List String :=
  l.insertionSort (· ≤ ·)

/-- The pruned TF-IDF vocabulary of `TfidfVectorizer(stop_words='english',
ngram_range=(1,2), min_df=2, max_df=0.8)`: every term of the corpus kept
iff it occurs in at least 2 documents and in at most 80% of them. -/
def buildVocab (texts : List String) : List String :=
  sortStrings (((texts.map docTerms).flatten.dedup).filter
    (fun t => 2 ≤ docFreq texts t ∧ (docFreq texts t : ℚ) ≤ 4/5 * texts.length))

/-- Rational surrogate for sklearn's smoothed IDF `ln((1+n)/(1+df)) + 1`
(irrational; same positivity and monotone decrease in `df`). -/
def idfQ (n df : ℕ) : ℚ :=
  (1 + n) / (1 + df) + 1

/-- Rational surrogate for Euclidean (`l2`) row normalisation: divide by
the squared norm instead of the (irrational) norm.  Zero rows stay zero
and the zero/nonzero pattern and nonnegativity are preserved. -/
def normalizeQ (v : List ℚ) : List ℚ :=
  let s := (v.map (fun x => x * x)).sum
  if s = 0 then v else v.map (· / s)

/-- TF-IDF row of one document over the pruned vocabulary. -/
def tfidfRow (texts : List String) (vocab : List String) (d : String) : List ℚ :=
  normalizeQ (vocab.map (fun t => ((docTerms d).count t : ℚ) * idfQ texts.length (docFreq texts t)))

/-- The category-channel label list of one record (src/ml_engine.py line
35): `categories.lower().split(', ')` — lower-case first, then split on
the literal comma-space; no per-label strip. -/
def cat_split (s : String) : List String :=
  pySplitCommaSpace (pyLower s)

/-- The classes of `MultiLabelBinarizer().fit_transform`: the sorted union
of all labels observed across the surviving records. -/
def mlbClasses (df : List Record) : List String :=
  sortStrings ((df.map (fun r => cat_split r.categories)).flatten.dedup)

/-- One multi-hot row of the binarizer: 1 at each class the record's label
list contains, 0 elsewhere. -/
def mlbRow (classes labels : List String) : List ℚ :=
  classes.map (fun c => if c ∈ labels then (1 : ℚ) else 0)

/-- Models `pd.read_csv` on the cache path: a missing backing file raises
`FileNotFoundError`; an existing file yields its rows in persisted order. -/
def loadCatalog : Option (List Record) → Except String (List Record)
  | none => Except.error "FileNotFoundError"
  | some rows => Except.ok rows

/-- The combined matrix over the surviving records:
`hstack([tfidf_matrix, genre_matrix * 0.5])` (src/ml_engine.py line 39),
one row per surviving record, the TF-IDF vector of its combined text
followed by its 0.5-scaled multi-hot category vector. -/
def matRows (rows : List Record) : List (List ℚ) :=
  (surviving rows).map (fun r =>
    tfidfRow ((surviving rows).map combined_text)
      (buildVocab ((surviving rows).map combined_text)) (combined_text r)
    ++ (mlbRow (mlbClasses (surviving rows)) (cat_split r.categories)).map (· * (1/2 : ℚ)))

/-- Embedding of `load_and_vectorize` (src/ml_engine.py lines 17-41): read
the catalog, drop records with blank `clean_description`, re-index, build
the TF-IDF matrix of the combined texts and the 0.5-scaled multi-hot
category matrix, and `hstack` them row-wise.  Like sklearn, it fails when
the pruned vocabulary is empty (`ValueError: empty vocabulary`). -/
def load_and_vectorize (file : Option (List Record)) :
    Except String (List Record × List (List ℚ)) :=
  match loadCatalog file with
  | Except.error e => Except.error e
  | Except.ok rows =>
    if (buildVocab ((surviving rows).map combined_text)).isEmpty then
      Except.error "ValueError: empty vocabulary"
    else Except.ok (surviving rows, matRows rows)

/-- Row `i` of the combined matrix. -/
def rowAt (m : List (List ℚ)) (i : ℕ) : List ℚ :=
  m.getD i []

/-- Dot product of two rows. -/
def dotQ (u v : List ℚ) : ℚ :=
  (List.zipWith (· * ·) u v).sum

/-- The square of the cosine similarity of two rows,
`(u.v)^2 / (|u|^2 |v|^2)` (with Lean's `0`-valued division by zero giving
`0` for a zero row, as sklearn's `cosine_similarity` does).  Every feature
value of the source is nonnegative, so squaring is injective and monotone
on the attained scores; the source consumes the scores only through
comparisons and display rounding, so this encoding preserves every
behaviour the claims concern. -/
def simSq (u v : List ℚ) : ℚ :=
  dotQ u v * dotQ u v / (dotQ u u * dotQ v v)

/-- The relation underlying the ascending `numpy.argsort` of a score
vector: order indices by score, equal scores by index.  Indexing ties by
position makes the ascending sort stable, which is what `numpy` computes
on the small score vectors at issue (its introsort runs plain insertion
sort below 16 elements). -/
def simLe (sims : List ℚ) (i j : ℕ) : Prop :=
  sims.getD i 0 < sims.getD j 0 ∨ (sims.getD i 0 = sims.getD j 0 ∧ i ≤ j)

instance (sims : List ℚ) : DecidableRel (simLe sims) := fun i j => by
  unfold simLe; infer_instance

instance (sims : List ℚ) : IsTotal ℕ (simLe sims) where
  total i j := by
    unfold simLe
    rcases lt_trichotomy (sims.getD i 0) (sims.getD j 0) with h | h | h
    · exact Or.inl (Or.inl h)
    · rcases Nat.le_total i j with hij | hij
      · exact Or.inl (Or.inr ⟨h, hij⟩)
      · exact Or.inr (Or.inr ⟨h.symm, hij⟩)
    · exact Or.inr (Or.inl h)

instance (sims : List ℚ) : IsTrans ℕ (simLe sims) where
  trans i j k hij hjk := by
    unfold simLe at *
    rcases hij with h1 | ⟨h1, h1'⟩
    · rcases hjk with h2 | ⟨h2, _⟩
      · exact Or.inl (h1.trans h2)
      · exact Or.inl (h2 ▸ h1)
    · rcases hjk with h2 | ⟨h2, h2'⟩
      · exact Or.inl (h1 ▸ h2)
      · exact Or.inr ⟨h1.trans h2, h1'.trans h2'⟩

/-- Ascending stable argsort of a score vector, `sims.argsort()`. -/
def argsortAsc (sims : List ℚ) : List ℕ :=
  (List.range sims.length).insertionSort (simLe sims)

/-- Embedding of `sims.argsort()[::-1]` (src/ml_engine.py line 63):
the reversed ascending argsort. -/
def argsortDesc (sims : List ℚ) : List ℕ :=
  (argsortAsc sims).reverse

/-- One returned recommendation item (src/ml_engine.py lines 75-82).  The
source stores `round(float(sims[i]), 2)`; the similarity here carries the
squared-cosine surrogate unrounded — the rounding is presentation-only
(spec section 4.3 step 7) and no claim constrains the field. -/
structure ScoredRecord where
  title : String
  author : String
  categories : String
  rating : String
  clean_description : String
  similarity : ℚ
deriving DecidableEq, Repr

/-- The per-candidate genre gate of `get_similar_books` (src/ml_engine.py
lines 70-73) evaluated on one comma-split, stripped, lower-cased category
string: with a nonempty filter the candidate is kept iff some filter
entry's `.lower()` form appears verbatim among the candidate's labels. -/
def book_cats (cats : String) : List String :=
  (pySplitChar ',' cats).map (fun g => pyLower (pyStrip g))

/-- Keep-condition of the candidate loop: an empty (or absent) filter list
keeps everything, otherwise `any(fg.lower() in book_cats ...)`. -/
def passes_genre_filter (filter_genres : List String) (cats : String) : Bool :=
  filter_genres.isEmpty || filter_genres.any (fun fg => pyLower fg ∈ book_cats cats)

/-- The result item built for candidate row `i`. -/
def mkItem (df : List Record) (sims : List ℚ) (i : ℕ) : ScoredRecord :=
  { title := (recAt df i).title
    author := (recAt df i).author
    categories := (recAt df i).categories
    rating := (recAt df i).rating
    clean_description := (recAt df i).clean_description
    similarity := sims.getD i 0 }

/-- The seed-matching index list of `get_similar_books` (src/ml_engine.py
line 55): the re-indexed row numbers whose `.lower()`-cased title equals
the `.lower()`-cased query title (no whitespace strip). -/
def seedMatches (df : List Record) (title : String) : List ℕ :=
  (List.range df.length).filter (fun i => pyLower (recAt df i).title == pyLower title)

/-- The similarity scores of the seed row `idx` against every one of the
`n` matrix rows (src/ml_engine.py line 61), in the squared-cosine
encoding. -/
def simsAgainst (m : List (List ℚ)) (idx : ℕ) (n : ℕ) : List ℚ :=
  (List.range n).map (fun i => simSq (rowAt m idx) (rowAt m i))

/-- The candidate-collecting loop of `get_similar_books` (src/ml_engine.py
lines 65-85): walk the sorted indices, skip the seed row, skip candidates
rejected by the genre gate, append the rest, and break as soon as the
result length reaches `top_n` — checked only after an append, exactly as
in the source. -/
def collect (df : List Record) (sims : List ℚ) (idx : ℕ) (fg : List String)
    (top_n : Int) : List ℕ → Int → List ScoredRecord
  | [], _ => []
  | i :: rest, count =>
    if i = idx then collect df sims idx fg top_n rest count
    else if passes_genre_filter fg (recAt df i).categories then
      if top_n ≤ count + 1 then [mkItem df sims i]
      else mkItem df sims i :: collect df sims idx fg top_n rest (count + 1)
    else collect df sims idx fg top_n rest count

/-- Embedding of `get_similar_books` (src/ml_engine.py lines 44-87):
vectorize the catalog, locate the seed by `.lower()`-cased exact title
match over the surviving rows (first match wins; an unmatched seed returns
the empty list, exactly like the source's `return []`), score every row
against the seed, order by `argsort()[::-1]`, and run the collecting
loop. -/
def get_similar_books (file : Option (List Record)) (title : String)
    (filter_genres : List String) (top_n : Int) : Except String (List ScoredRecord) :=
  match load_and_vectorize file with
  | Except.error e => Except.error e
  | Except.ok (df, m) =>
    match seedMatches df title with
    | [] => Except.ok []
    | idx :: _ =>
      Except.ok (collect df (simsAgainst m idx df.length) idx filter_genres top_n
        (argsortDesc (simsAgainst m idx df.length)) 0)

/-- The result list of a call, with a raised exception contributing no
items. -/
def resultList (e : Except String (List ScoredRecord)) : List ScoredRecord :=
  (e.toOption).getD []

/-- Titles of the result list, in order. -/
def resTitles (e : Except String (List ScoredRecord)) : List String :=
  (resultList e).map (fun item => item.title)

/-- Index of the seed row that `get_similar_books` would use for a title:
first surviving row with matching `.lower()`-cased title. -/
def seedIdx? (rows : List Record) (title : String) : Option ℕ :=
  (seedMatches (surviving rows) title).head?

/-- Concrete three-record catalog: every record survives the filter and the
corpus has a nonempty pruned vocabulary ("dragon", "mountain", "fantasy"
and the bigram "dragon mountain" each occur in exactly 2 of 3 documents,
within the `min_df=2` / `max_df=0.8` bounds). -/
def bookA : Record :=
  { title := "The Hobbit", author := "J. R. R. Tolkien", description := "d1"
    clean_description := "dragon mountain quest", categories := "Fantasy, Adventure"
    rating := "4.5" }

def bookB : Record :=
  { title := "Dragon Tales", author := "B. Writer", description := "d2"
    clean_description := "dragon mountain stories", categories := "Fantasy"
    rating := "N/A" }

def bookC : Record :=
  { title := "Love Story", author := "C. Writer", description := "d3"
    clean_description := "village romance tale", categories := "Romance"
    rating := "3.9" }

def cat3 : List Record := [bookA, bookB, bookC]

/-- A record whose `clean_description` is whitespace only: dropped by the
vectorizability filter. -/
def bookD : Record :=
  { title := "Ghost Book", author := "D. Writer", description := "d4"
    clean_description := "   ", categories := "Horror", rating := "N/A" }

def cat5 : List Record := cat3 ++ [bookD]

/-- Catalog for the tie-order question: `bookBeta` and `bookGamma` have
identical `clean_description` and `categories`, hence identical combined
matrix rows and exactly equal cosine similarity to the seed — in the
floating-point original just as in this embedding. -/
def bookAlpha : Record :=
  { title := "Alpha Book", author := "A. Writer", description := "e1"
    clean_description := "wizard tower", categories := "Fantasy", rating := "4.0" }

def bookBeta : Record :=
  { title := "Beta Book", author := "B. Writer", description := "e2"
    clean_description := "wizard castle", categories := "Fantasy", rating := "4.1" }

def bookGamma : Record :=
  { title := "Gamma Book", author := "G. Writer", description := "e3"
    clean_description := "wizard castle", categories := "Fantasy", rating := "4.2" }

def cat4 : List Record := [bookAlpha, bookBeta, bookGamma]

/-- The title normalisation named by the spec's dedup invariant: trim,
then case-fold. -/
def norm_title (s : String) : String :=
  pyLower (pyStrip s)

/-- Catalog contents after a sequence of `save_to_cache` calls starting
from an empty (missing-file) catalog. -/
def catalogAfter (seq : List Record) : List Record :=
  (List.foldl save_to_cache none seq).getD []

/-- Invariant of the `save_to_cache` fold: given that the current file
holds records with pairwise-distinct `.lower()`-cased titles, each of them
the first record of the processed prefix with its cased title, and that
every processed record's cased title is represented, the same holds after
processing the remaining sequence. -/
theorem save_to_cache_fold_invariant (seq : List Record) :
    ∀ (pre : List Record) (file : Option (List Record)),
      ((file.getD []).map (fun r => pyLower r.title)).Nodup →
      (∀ r ∈ file.getD [], pre.find? (fun b => pyLower b.title == pyLower r.title) = some r) →
      (∀ b ∈ pre, ∃ r ∈ file.getD [], pyLower r.title = pyLower b.title) →
      (((List.foldl save_to_cache file seq).getD []).map (fun r => pyLower r.title)).Nodup
      ∧ (∀ r ∈ (List.foldl save_to_cache file seq).getD [],
          (pre ++ seq).find? (fun b => pyLower b.title == pyLower r.title) = some r)
      ∧ (∀ b ∈ pre ++ seq, ∃ r ∈ (List.foldl save_to_cache file seq).getD [],
          pyLower r.title = pyLower b.title) := by
  induction seq with
  | nil =>
    intro pre file h1 h2 h3
    simpa using ⟨h1, h2, h3⟩
  | cons b seq ih =>
    intro pre file h1 h2 h3
    rw [List.foldl_cons, show pre ++ b :: seq = (pre ++ [b]) ++ seq by simp]
    by_cases hmem : pyLower b.title ∈ (file.getD []).map (fun r => pyLower r.title)
    · have hstep : save_to_cache file b = file := by
        unfold save_to_cache; simp [hmem]
      rw [hstep]
      refine ih (pre ++ [b]) file h1 ?_ ?_
      · intro r hr
        simp [List.find?_append, h2 r hr]
      · intro x hx
        rcases List.mem_append.mp hx with hx | hx
        · exact h3 x hx
        · simp only [List.mem_singleton] at hx
          subst hx
          rcases List.mem_map.mp hmem with ⟨r, hrmem, hrt⟩
          exact ⟨r, hrmem, hrt⟩
    · have hstep : save_to_cache file b = some (file.getD [] ++ [b]) := by
        unfold save_to_cache; simp [hmem]
      rw [hstep]
      refine ih (pre ++ [b]) (some (file.getD [] ++ [b])) ?_ ?_ ?_
      · simp only [Option.getD_some, List.map_append, List.map_cons, List.map_nil]
        rw [List.nodup_append]
        refine ⟨h1, List.nodup_singleton _, ?_⟩
        intro t ht hb
        simp only [List.mem_singleton] at hb
        subst hb
        exact hmem ht
      · intro r hr
        simp only [Option.getD_some] at hr
        rcases List.mem_append.mp hr with hr | hr
        · simp [List.find?_append, h2 r hr]
        · simp only [List.mem_singleton] at hr
          subst hr
          have hnone : pre.find? (fun x => pyLower x.title == pyLower r.title) = none := by
            apply List.find?_eq_none.mpr
            intro x hx hfalse
            have hxt : pyLower x.title = pyLower r.title := by simpa using hfalse
            rcases h3 x hx with ⟨s, hsmem, hst⟩
            exact hmem (List.mem_map.mpr ⟨s, hsmem, by rw [hst, hxt]⟩)
          simp [List.find?_append, hnone]
      · intro x hx
        rcases List.mem_append.mp hx with hx | hx
        · rcases h3 x hx with ⟨r, hrmem, hrt⟩
          exact ⟨r, by simp [hrmem], hrt⟩
        · simp only [List.mem_singleton] at hx
          subst hx
          exact ⟨x, by simp, rfl⟩

/-- C1 counterexample.  The claim normalises titles by trim + case-fold,
but the `save_to_cache` gate folds case only: submitting "The Hobbit" and
then "The Hobbit " (trailing space) stores two records whose trim +
case-fold normalised titles coincide, so the catalog does not contain at
most one record per trim + case-fold title. -/
theorem c1_counterexample :
    (catalogAfter [bookA, { bookA with title := "The Hobbit " }]).map
        (fun r => norm_title r.title) = ["the hobbit", "the hobbit"] := by
  decide

/-- C1 (amended): for every sequence of `save_to_cache` calls starting
from an empty catalog, the resulting catalog contains at most one record
per title normalised by case-fold alone (no trim), and the record kept
for each case-folded title is the first one submitted with that title. -/
theorem c1_dedup_casefold_first_wins (seq : List Record) :
    ((catalogAfter seq).map (fun r => pyLower r.title)).Nodup
    ∧ ∀ r ∈ catalogAfter seq,
        seq.find? (fun b => pyLower b.title == pyLower r.title) = some r := by
  have h := save_to_cache_fold_invariant seq [] none (by simp) (by simp) (by simp)
  exact ⟨h.1, by simpa using h.2.1⟩

instance {ε α : Type} [DecidableEq ε] [DecidableEq α] : DecidableEq (Except ε α) := fun x y =>
  match x, y with
  | Except.error a, Except.error b =>
    if h : a = b then isTrue (h ▸ rfl) else isFalse fun he => h (Except.error.inj he)
  | Except.ok a, Except.ok b =>
    if h : a = b then isTrue (h ▸ rfl) else isFalse fun he => h (Except.ok.inj he)
  | Except.error _, Except.ok _ => isFalse fun he => Except.noConfusion he
  | Except.ok _, Except.error _ => isFalse fun he => Except.noConfusion he

/-- C8 counterexample.  On a missing backing file `get_cached_book` does
return not-found, but the catalog load feeding the feature builder
(`pd.read_csv` inside `load_and_vectorize`) raises `FileNotFoundError`
instead of producing an empty sequence, so the conjunctive claim fails. -/
theorem c8_counterexample :
    get_cached_book none "The Hobbit" = none
    ∧ load_and_vectorize none = Except.error "FileNotFoundError"
    ∧ get_similar_books none "The Hobbit" [] 5 = Except.error "FileNotFoundError" :=
  ⟨rfl, rfl, rfl⟩

/-- C8 (amended): when the backing catalog file does not exist,
`get_cached_book` returns not-found without raising, but the catalog load
feeding the feature builder raises `FileNotFoundError` (propagated
unchanged by `get_similar_books`) rather than returning an empty
sequence. -/
theorem c8_missing_file_behavior (title : String) (fg : List String) (n : Int) :
    get_cached_book none title = none
    ∧ load_and_vectorize none = Except.error "FileNotFoundError"
    ∧ get_similar_books none title fg n = Except.error "FileNotFoundError" :=
  ⟨rfl, rfl, rfl⟩

/-- C3 counterexample.  Seed resolution in `get_similar_books` compares
`.lower()`-cased titles without stripping: on a catalog storing
"The Hobbit", the seed "  the hobbit " (extra whitespace) resolves to no
record and yields the empty list, while the exact stored title resolves
and yields a nonempty list — even though `get_cached_book` resolves the
whitespaced form. -/
theorem c3_counterexample :
    get_similar_books (some cat3) "  the hobbit " [] 5 = Except.ok []
    ∧ get_similar_books (some cat3) "The Hobbit" [] 5 ≠ Except.ok []
    ∧ get_cached_book (some cat3) "  the hobbit " = some bookA := by
  refine ⟨by with_unfolding_all decide, by with_unfolding_all decide, by decide⟩

/-- C3 (amended): a seed title supplied to `get_similar_books` with
different casing than the stored title resolves to the same record (the
whole call is invariant under `.lower()`-equality of the seed), but
leading/trailing whitespace is not tolerated there; whitespace-trimmed
resolution holds only for the store lookup `get_cached_book`, which is
invariant under trim + case-fold equality of the title. -/
theorem c3_case_insensitive_seed_resolution (file : Option (List Record))
    (t1 t2 : String) (fg : List String) (n : Int) :
    (pyLower t1 = pyLower t2 →
      get_similar_books file t1 fg n = get_similar_books file t2 fg n)
    ∧ (norm_title t1 = norm_title t2 →
      get_cached_book file t1 = get_cached_book file t2) := by
  constructor
  · intro h
    unfold get_similar_books seedMatches
    simp only [h]
  · intro h
    simp only [norm_title] at h
    unfold get_cached_book
    simp only [h]

/-- C3 witness: concrete instances of both amended parts. -/
theorem c3_witness :
    pyLower "the hobbit" = pyLower "The Hobbit"
    ∧ get_similar_books (some cat3) "the hobbit" [] 5
        = get_similar_books (some cat3) "The Hobbit" [] 5
    ∧ norm_title "  the hobbit " = norm_title "The Hobbit"
    ∧ get_cached_book (some cat3) "  the hobbit " = get_cached_book (some cat3) "The Hobbit" :=
  ⟨by decide,
   (c3_case_insensitive_seed_resolution (some cat3) "the hobbit" "The Hobbit" [] 5).1 (by decide),
   by decide,
   (c3_case_insensitive_seed_resolution (some cat3) "  the hobbit " "The Hobbit" [] 5).2 (by decide)⟩

/-- Record indexing agrees with `getElem` in range. -/
theorem recAt_eq_getElem (df : List Record) (i : ℕ) (hi : i < df.length) :
    recAt df i = df[i] := by
  simp [recAt, List.getD_eq_getElem?_getD, List.getElem?_eq_getElem hi]

/-- Row indexing through a `map` in range. -/
theorem rowAt_map (df : List Record) (f : Record → List ℚ) (i : ℕ) (hi : i < df.length) :
    rowAt (df.map f) i = f df[i] := by
  simp [rowAt, List.getD_eq_getElem?_getD, List.getElem?_eq_getElem hi]

/-- Scaling the multi-hot row by one half turns each indicator entry into
`1/2` or `0`. -/
theorem mlbRow_scaled (classes labels : List String) :
    (mlbRow classes labels).map (· * (1/2 : ℚ))
      = classes.map (fun c => if c ∈ labels then (1:ℚ)/2 else 0) := by
  simp only [mlbRow, List.map_map, Function.comp]
  refine List.map_congr_left fun c _ => ?_
  by_cases h : c ∈ labels
  · simp [h]
  · simp [h]

/-- Row `i` of the combined matrix produced for an existing catalog file,
with a raised exception contributing the empty row. -/
def lvRow (rows : List Record) (i : ℕ) : List ℚ :=
  match load_and_vectorize (some rows) with
  | Except.ok p => rowAt p.2 i
  | Except.error _ => []

/-- C9 counterexample.  The claim says each record's categories string is
split on comma into trimmed, lower-cased labels; the code lower-cases the
whole string and then splits on the literal `", "` (comma-space) with no
per-label strip: on `"A,B"` the code channel produces the single label
`"a,b"` instead of `{"a","b"}`, and on `"a , b"` it keeps the untrimmed
label `"a "`. -/
theorem c9_counterexample :
    cat_split "A,B" = ["a,b"]
    ∧ book_cats "A,B" = ["a", "b"]
    ∧ "a" ∉ cat_split "A,B"
    ∧ cat_split "a , b" = ["a ", "b"] := by
  decide

/-- C9 (amended): in `load_and_vectorize`, each surviving record's
categories string is lower-cased and split on the literal comma-space
`", "` (without per-label trimming) into labels, a multi-hot encoding is
built over the union of all labels observed across surviving records, and
every value of that encoding is scaled by exactly 0.5 before being
concatenated after the text vector: in range, row `i` of the combined
matrix is some text part followed by exactly `1/2` at each class label the
record carries and `0` at each class label it does not. -/
theorem c9_category_channel (rows : List Record) (i : ℕ)
    (hok : (load_and_vectorize (some rows)).isOk = true)
    (hi : i < (surviving rows).length) :
    ∃ textPart : List ℚ,
      lvRow rows i
        = textPart ++ (mlbClasses (surviving rows)).map
            (fun c => if c ∈ cat_split ((recAt (surviving rows) i).categories) then (1:ℚ)/2 else 0) := by
  simp only [lvRow, load_and_vectorize, loadCatalog] at *
  by_cases hv : (buildVocab ((surviving rows).map combined_text)).isEmpty
  · simp [hv, Except.isOk, Except.toBool] at hok
  · simp only [hv, Bool.false_eq_true, if_false]
    refine ⟨tfidfRow ((surviving rows).map combined_text)
      (buildVocab ((surviving rows).map combined_text))
      (combined_text (recAt (surviving rows) i)), ?_⟩
    rw [matRows, rowAt_map _ _ i hi, recAt_eq_getElem _ i hi, mlbRow_scaled]

/-- C9 witness: concrete instance on the three-record catalog. -/
theorem c9_witness :
    (load_and_vectorize (some cat3)).isOk = true
    ∧ (0:ℕ) < (surviving cat3).length
    ∧ ∃ textPart : List ℚ,
        lvRow cat3 0
          = textPart ++ (mlbClasses (surviving cat3)).map
              (fun c => if c ∈ cat_split ((recAt (surviving cat3) 0).categories) then (1:ℚ)/2 else 0) :=
  ⟨by with_unfolding_all decide, by decide,
   c9_category_channel cat3 0 (by with_unfolding_all decide) (by decide)⟩

/-- The descending argsort is a permutation of the row indices. -/
theorem argsortDesc_perm (sims : List ℚ) :
    List.Perm (argsortDesc sims) (List.range sims.length) :=
  (List.reverse_perm _).trans (List.perm_insertionSort _ _)

/-- Every in-range row index occurs in the descending argsort. -/
theorem mem_argsortDesc (sims : List ℚ) (i : ℕ) (hi : i < sims.length) :
    i ∈ argsortDesc sims :=
  (argsortDesc_perm sims).mem_iff.mpr (List.mem_range.mpr hi)

/-- Along the descending argsort, any later index is `simLe`-below any
earlier one. -/
theorem argsortDesc_pairwise (sims : List ℚ) :
    (argsortDesc sims).Pairwise (flip (simLe sims)) := by
  rw [argsortDesc, List.pairwise_reverse]
  simpa [List.Sorted] using
    List.sorted_insertionSort (simLe sims) (List.range sims.length)

/-- C4 counterexample.  `argsort()[::-1]` reverses a stable ascending
argsort, so two rows with exactly equal scores come out in the reverse of
their pre-sort order, not in their original order: on the score vector
`[1, 1]` the order is `[1, 0]`, and on a catalog whose rows 1 and 2 are
identical (hence exactly tied in similarity to the seed row 0, in the
floating-point original as well) `get_similar_books` returns the later
record before the earlier one. -/
theorem c4_counterexample :
    [(1:ℚ), 1].getD 0 0 = [(1:ℚ), 1].getD 1 0
    ∧ argsortDesc [(1:ℚ), 1] = [1, 0]
    ∧ (load_and_vectorize (some cat4)).map (fun p => rowAt p.2 1)
        = (load_and_vectorize (some cat4)).map (fun p => rowAt p.2 2)
    ∧ cat4 = [bookAlpha, bookBeta, bookGamma]
    ∧ resTitles (get_similar_books (some cat4) "Alpha Book" [] 5)
        = [bookGamma.title, bookBeta.title] := by
  with_unfolding_all decide

/-- C4 (amended): the candidate order used by `get_similar_books` — the
reversed ascending argsort of the similarity scores — is sorted by score
descending, and whenever two rows have exactly equal scores their relative
order is the reverse of their original (pre-sort) order: the
larger-indexed row comes first. -/
theorem c4_sorted_desc_ties_reversed (sims : List ℚ) :
    (∀ p q (hp : p < (argsortDesc sims).length) (hq : q < (argsortDesc sims).length),
      p ≤ q →
      sims.getD ((argsortDesc sims).get ⟨q, hq⟩) 0
        ≤ sims.getD ((argsortDesc sims).get ⟨p, hp⟩) 0)
    ∧ (∀ i j : ℕ, i < j → j < sims.length → sims.getD i 0 = sims.getD j 0 →
      (argsortDesc sims).indexOf j < (argsortDesc sims).indexOf i) := by
  have hpw := argsortDesc_pairwise sims
  have hget := List.pairwise_iff_get.mp hpw
  constructor
  · intro p q hp hq hpq
    rcases Nat.lt_or_ge p q with hlt | hge
    · rcases hget ⟨p, hp⟩ ⟨q, hq⟩ hlt with h | ⟨h, _⟩
      · exact le_of_lt h
      · exact le_of_eq h
    · have : p = q := Nat.le_antisymm hpq hge
      subst this
      rfl
  · intro i j hij hj hkey
    have hi : i < sims.length := hij.trans hj
    have hmi : i ∈ argsortDesc sims := mem_argsortDesc sims i hi
    have hmj : j ∈ argsortDesc sims := mem_argsortDesc sims j hj
    have hpi : (argsortDesc sims).indexOf i < (argsortDesc sims).length :=
      List.indexOf_lt_length.mpr hmi
    have hpj : (argsortDesc sims).indexOf j < (argsortDesc sims).length :=
      List.indexOf_lt_length.mpr hmj
    have hgi : (argsortDesc sims).get ⟨(argsortDesc sims).indexOf i, hpi⟩ = i :=
      List.indexOf_get hpi
    have hgj : (argsortDesc sims).get ⟨(argsortDesc sims).indexOf j, hpj⟩ = j :=
      List.indexOf_get hpj
    have hne : (argsortDesc sims).indexOf i ≠ (argsortDesc sims).indexOf j := by
      intro h
      apply Nat.ne_of_lt hij
      calc i = (argsortDesc sims).get ⟨(argsortDesc sims).indexOf i, hpi⟩ := hgi.symm
        _ = (argsortDesc sims).get ⟨(argsortDesc sims).indexOf j, hpj⟩ := by
              congr 1
              exact Fin.ext h
        _ = j := hgj
    rcases Nat.lt_or_ge ((argsortDesc sims).indexOf j) ((argsortDesc sims).indexOf i) with h | h
    · exact h
    · exfalso
      have hlt : (argsortDesc sims).indexOf i < (argsortDesc sims).indexOf j :=
        Nat.lt_of_le_of_ne h hne
      have := hget ⟨(argsortDesc sims).indexOf i, hpi⟩ ⟨(argsortDesc sims).indexOf j, hpj⟩ hlt
      rw [hgi, hgj] at this
      rcases this with hlt' | ⟨_, hle⟩
      · rw [hkey] at hlt'
        exact lt_irrefl _ hlt'
      · exact Nat.not_le.mpr hij hle

/-- C4 witness: a concrete tie, reversed. -/
theorem c4_witness :
    [(3:ℚ), 1, 1].getD 1 0 = [(3:ℚ), 1, 1].getD 2 0
    ∧ (argsortDesc [(3:ℚ), 1, 1]).indexOf 2 < (argsortDesc [(3:ℚ), 1, 1]).indexOf 1 :=
  ⟨by with_unfolding_all decide,
   (c4_sorted_desc_ties_reversed [(3:ℚ), 1, 1]).2 1 2 (by decide) (by decide)
     (by with_unfolding_all decide)⟩

/-- Vectorizing an existing catalog file either fails on an empty
vocabulary or yields the surviving rows with the combined matrix. -/
theorem load_and_vectorize_some_eq (rows : List Record) :
    load_and_vectorize (some rows) = Except.error "ValueError: empty vocabulary"
    ∨ load_and_vectorize (some rows) = Except.ok (surviving rows, matRows rows) := by
  unfold load_and_vectorize loadCatalog
  by_cases hv : (buildVocab ((surviving rows).map combined_text)).isEmpty
  · left; simp [hv]
  · right; simp [hv]

/-- A successful vectorization of an existing file determines its frame
and matrix. -/
theorem load_and_vectorize_ok_inv (rows df : List Record) (m : List (List ℚ))
    (h : load_and_vectorize (some rows) = Except.ok (df, m)) :
    df = surviving rows ∧ m = matRows rows := by
  rcases load_and_vectorize_some_eq rows with h' | h'
  · rw [h'] at h
    exact absurd h (by simp)
  · rw [h'] at h
    have hp := Except.ok.inj h
    injection hp with h1 h2
    exact ⟨h1.symm, h2.symm⟩

/-- The score vector has one entry per matrix row scanned. -/
theorem simsAgainst_length (m : List (List ℚ)) (idx n : ℕ) :
    (simsAgainst m idx n).length = n := by
  simp [simsAgainst]

/-- A call to `get_similar_books` either contributes no items or runs the
collecting loop on a successfully vectorized frame with a nonempty seed
match list. -/
theorem get_similar_books_structure (file : Option (List Record)) (title : String)
    (fg : List String) (top_n : Int) :
    resultList (get_similar_books file title fg top_n) = []
    ∨ ∃ df m idx rest,
        load_and_vectorize file = Except.ok (df, m)
        ∧ seedMatches df title = idx :: rest
        ∧ resultList (get_similar_books file title fg top_n)
            = collect df (simsAgainst m idx df.length) idx fg top_n
                (argsortDesc (simsAgainst m idx df.length)) 0 := by
  cases hlv : load_and_vectorize file with
  | error e =>
    left
    simp [resultList, get_similar_books, hlv, Except.toOption]
  | ok p =>
    obtain ⟨df, m⟩ := p
    cases hm : seedMatches df title with
    | nil =>
      left
      simp [resultList, get_similar_books, hlv, hm, Except.toOption]
    | cons idx rest =>
      right
      refine ⟨df, m, idx, rest, rfl, hm, ?_⟩
      simp [resultList, get_similar_books, hlv, hm, Except.toOption]

/-- The collecting loop never grows the result past `top_n` once the
running count is below it. -/
theorem collect_length_le (df : List Record) (sims : List ℚ) (idx : ℕ) (fg : List String)
    (top_n : Int) :
    ∀ (lst : List ℕ) (count : Int), count < top_n →
      ((collect df sims idx fg top_n lst count).length : Int) + count ≤ top_n := by
  intro lst
  induction lst with
  | nil =>
    intro count h
    simp only [collect, List.length_nil, Nat.cast_zero, zero_add]
    omega
  | cons i rest ih =>
    intro count h
    simp only [collect]
    by_cases hidx : i = idx
    · rw [if_pos hidx]
      exact ih count h
    · rw [if_neg hidx]
      by_cases hpass : passes_genre_filter fg (recAt df i).categories = true
      · rw [if_pos hpass]
        by_cases hbreak : top_n ≤ count + 1
        · rw [if_pos hbreak]
          simp only [List.length_cons, List.length_nil]
          omega
        · rw [if_neg hbreak]
          have := ih (count + 1) (by omega)
          simp only [List.length_cons]
          push_cast at *
          omega
      · rw [if_neg hpass]
        exact ih count h

/-- Every item the collecting loop emits comes from a scanned candidate
index that is not the seed row and passes the genre gate. -/
theorem collect_mem (df : List Record) (sims : List ℚ) (idx : ℕ) (fg : List String)
    (top_n : Int) :
    ∀ (lst : List ℕ) (count : Int) (item : ScoredRecord),
      item ∈ collect df sims idx fg top_n lst count →
      ∃ i ∈ lst, i ≠ idx ∧ passes_genre_filter fg (recAt df i).categories = true
        ∧ item = mkItem df sims i := by
  intro lst
  induction lst with
  | nil =>
    intro count item h
    simp [collect] at h
  | cons i rest ih =>
    intro count item h
    simp only [collect] at h
    by_cases hidx : i = idx
    · rw [if_pos hidx] at h
      obtain ⟨j, hj, hrest⟩ := ih count item h
      exact ⟨j, List.mem_cons_of_mem _ hj, hrest⟩
    · rw [if_neg hidx] at h
      by_cases hpass : passes_genre_filter fg (recAt df i).categories = true
      · rw [if_pos hpass] at h
        by_cases hbreak : top_n ≤ count + 1
        · rw [if_pos hbreak] at h
          simp only [List.mem_singleton] at h
          exact ⟨i, List.mem_cons_self i rest, hidx, hpass, h⟩
        · rw [if_neg hbreak] at h
          rcases List.mem_cons.mp h with h | h
          · exact ⟨i, List.mem_cons_self i rest, hidx, hpass, h⟩
          · obtain ⟨j, hj, hrest⟩ := ih (count + 1) item h
            exact ⟨j, List.mem_cons_of_mem _ hj, hrest⟩
      · rw [if_neg hpass] at h
        obtain ⟨j, hj, hrest⟩ := ih count item h
        exact ⟨j, List.mem_cons_of_mem _ hj, hrest⟩

/-- With a nonpositive `top_n`, the loop stops right after its first
append: one passing candidate in the scan list forces exactly one item. -/
theorem collect_nonpos_topn (df : List Record) (sims : List ℚ) (idx : ℕ) (fg : List String)
    (top_n : Int) (hn : top_n ≤ 0) :
    ∀ (lst : List ℕ),
      (∃ i ∈ lst, i ≠ idx ∧ passes_genre_filter fg (recAt df i).categories = true) →
      (collect df sims idx fg top_n lst 0).length = 1 := by
  intro lst
  induction lst with
  | nil =>
    rintro ⟨i, hi, _⟩
    simp at hi
  | cons i rest ih =>
    rintro ⟨j, hj, hjne, hjpass⟩
    simp only [collect]
    by_cases hidx : i = idx
    · rw [if_pos hidx]
      apply ih
      rcases List.mem_cons.mp hj with h | h
      · exact absurd (h.trans hidx) hjne
      · exact ⟨j, h, hjne, hjpass⟩
    · rw [if_neg hidx]
      by_cases hpass : passes_genre_filter fg (recAt df i).categories = true
      · rw [if_pos hpass, if_pos (by omega : top_n ≤ (0:Int) + 1)]
        rfl
      · rw [if_neg hpass]
        apply ih
        rcases List.mem_cons.mp hj with h | h
        · rw [h] at hjpass
          exact absurd hjpass hpass
        · exact ⟨j, h, hjne, hjpass⟩

/-- C7: for every call to `get_similar_books` with a positive `top_n`, the
returned result list has length at most `top_n`; shorter results (including
the raised-exception and not-found cases, which contribute no items) are
possible and are not errors of the bound. -/
theorem c7_bounded_results (file : Option (List Record)) (title : String)
    (fg : List String) (top_n : Int) (h : 1 ≤ top_n) :
    ((resultList (get_similar_books file title fg top_n)).length : Int) ≤ top_n := by
  rcases get_similar_books_structure file title fg top_n with
    hres | ⟨df, m, idx, rest, _, _, hres⟩
  · rw [hres]
    simpa using by omega
  · rw [hres]
    have := collect_length_le df (simsAgainst m idx df.length) idx fg top_n
      (argsortDesc (simsAgainst m idx df.length)) 0 (by omega)
    omega

/-- C7 witness: a concrete call bounded by `top_n = 5`. -/
theorem c7_witness :
    (1 : Int) ≤ 5
    ∧ ((resultList (get_similar_books (some cat3) "The Hobbit" [] 5)).length : Int) ≤ 5 :=
  ⟨by decide, c7_bounded_results (some cat3) "The Hobbit" [] 5 (by decide)⟩

/-- C6: for every call to `get_similar_books` with a nonempty
`filter_categories` list, every returned item has at least one category
label — after comma-split, strip, lower-case — in common with the filter
list, case-insensitively: some filter entry's `.lower()` form occurs among
the item's labels. -/
theorem c6_filter_correctness (file : Option (List Record)) (title : String)
    (fg : List String) (top_n : Int) (hfg : fg ≠ []) :
    ∀ item ∈ resultList (get_similar_books file title fg top_n),
      ∃ g ∈ fg, pyLower g ∈ book_cats item.categories := by
  intro item hitem
  rcases get_similar_books_structure file title fg top_n with
    hres | ⟨df, m, idx, rest, _, _, hres⟩
  · rw [hres] at hitem
    simp at hitem
  · rw [hres] at hitem
    obtain ⟨i, _, _, hpass, heq⟩ := collect_mem df _ idx fg top_n _ 0 item hitem
    subst heq
    cases fg with
    | nil => exact absurd rfl hfg
    | cons g0 gs =>
      simp only [passes_genre_filter, List.isEmpty_cons, Bool.false_or,
        List.any_eq_true] at hpass
      obtain ⟨g, hg, hmem⟩ := hpass
      exact ⟨g, hg, of_decide_eq_true hmem⟩

/-- C6 witness: the filtered call on the concrete catalog. -/
theorem c6_witness :
    (["Fantasy"] : List String) ≠ []
    ∧ ∀ item ∈ resultList (get_similar_books (some cat3) "The Hobbit" ["Fantasy"] 5),
        ∃ g ∈ (["Fantasy"] : List String), pyLower g ∈ book_cats item.categories :=
  ⟨by decide, c6_filter_correctness (some cat3) "The Hobbit" ["Fantasy"] 5 (by decide)⟩

/-- C5: a record whose `clean_description` is empty after stripping is
excluded from the feature-build universe: every returned item carries a
nonempty stripped `clean_description` (so the record's item never appears),
and when no surviving record's title matches the seed — even if the
empty-description record's title does — the call returns no items. -/
theorem c5_empty_description_excluded (rows : List Record) (title : String)
    (fg : List String) (top_n : Int) (r : Record) (hr : r ∈ rows)
    (hempty : pyStrip r.clean_description = "") :
    (∀ item ∈ resultList (get_similar_books (some rows) title fg top_n),
      pyStrip item.clean_description ≠ "" ∧ item.clean_description ≠ r.clean_description)
    ∧ ((∀ s ∈ surviving rows, pyLower s.title ≠ pyLower title) →
      resultList (get_similar_books (some rows) title fg top_n) = []) := by
  constructor
  · intro item hitem
    rcases get_similar_books_structure (some rows) title fg top_n with
      hres | ⟨df, m, idx, rest, hlv, hm, hres⟩
    · rw [hres] at hitem
      simp at hitem
    · rw [hres] at hitem
      obtain ⟨df_eq, _⟩ := load_and_vectorize_ok_inv rows df m hlv
      subst df_eq
      obtain ⟨i, hilst, _, _, heq⟩ :=
        collect_mem (surviving rows) _ idx fg top_n _ 0 item hitem
      have hlen : i < (surviving rows).length := by
        have hmem := (argsortDesc_perm _).mem_iff.mp hilst
        simpa [simsAgainst] using List.mem_range.mp hmem
      have hdfmem : recAt (surviving rows) i ∈ surviving rows := by
        rw [recAt_eq_getElem _ i hlen]
        exact List.getElem_mem hlen
      have hsurv : pyStrip (recAt (surviving rows) i).clean_description ≠ "" := by
        have hf := List.mem_filter.mp hdfmem
        simpa using hf.2
      subst heq
      have hc : (mkItem (surviving rows) (simsAgainst m idx (surviving rows).length) i).clean_description
          = (recAt (surviving rows) i).clean_description := rfl
      rw [hc]
      refine ⟨hsurv, fun hcd => hsurv ?_⟩
      rw [hcd]
      exact hempty
  · intro hnm
    rcases get_similar_books_structure (some rows) title fg top_n with
      hres | ⟨df, m, idx, rest, hlv, hm, hres⟩
    · exact hres
    · exfalso
      obtain ⟨df_eq, _⟩ := load_and_vectorize_ok_inv rows df m hlv
      subst df_eq
      have hidx : idx ∈ seedMatches (surviving rows) title := by
        rw [hm]
        exact List.mem_cons_self idx rest
      unfold seedMatches at hidx
      have h1 := List.mem_filter.mp hidx
      have hlen : idx < (surviving rows).length := List.mem_range.mp h1.1
      have heq : pyLower (recAt (surviving rows) idx).title = pyLower title := by
        simpa using h1.2
      apply hnm (recAt (surviving rows) idx) ?_ heq
      rw [recAt_eq_getElem _ idx hlen]
      exact List.getElem_mem hlen

/-- C5 witness: the whitespace-description record neither resolves as a
seed nor appears. -/
theorem c5_witness :
    bookD ∈ cat5
    ∧ pyStrip bookD.clean_description = ""
    ∧ resultList (get_similar_books (some cat5) "Ghost Book" [] 5) = [] :=
  ⟨by decide, by decide,
   (c5_empty_description_excluded cat5 "Ghost Book" [] 5 bookD (by decide) (by decide)).2
     (by with_unfolding_all decide)⟩

/-- C2 counterexample.  The not-found outcome is not a distinguishable
`NotFound` signal: on the concrete catalog, the call with an unknown seed
title returns exactly the same value (`Except.ok []`, mirroring the
source's `return []` after a console print) as the call whose seed is
found but whose every candidate is removed by category filtering. -/
theorem c2_counterexample :
    get_similar_books (some cat3) "zzz" [] 5
        = get_similar_books (some cat3) "The Hobbit" ["Western"] 5
    ∧ get_similar_books (some cat3) "zzz" [] 5 = Except.ok []
    ∧ (∀ s ∈ surviving cat3, pyLower s.title ≠ pyLower "zzz")
    ∧ ¬ (∀ s ∈ surviving cat3, pyLower s.title ≠ pyLower "The Hobbit") := by
  with_unfolding_all decide

/-- C2 (amended): when the catalog file exists, the vectorizer succeeds
and no surviving record's title matches the seed title,
`get_similar_books` returns the plain empty list `Except.ok []` — the very
value of a valid empty success — rather than a distinguishable `NotFound`
failure. -/
theorem c2_notfound_returns_empty_list (rows : List Record) (title : String)
    (fg : List String) (top_n : Int)
    (hok : (load_and_vectorize (some rows)).isOk = true)
    (hnm : ∀ s ∈ surviving rows, pyLower s.title ≠ pyLower title) :
    get_similar_books (some rows) title fg top_n = Except.ok [] := by
  rcases load_and_vectorize_some_eq rows with h | h
  · rw [h] at hok
    simp [Except.isOk, Except.toBool] at hok
  · have hmn : seedMatches (surviving rows) title = [] := by
      unfold seedMatches
      apply List.filter_eq_nil_iff.mpr
      intro i hi
      have hlen := List.mem_range.mp hi
      rw [recAt_eq_getElem _ i hlen]
      simpa using hnm _ (List.getElem_mem hlen)
    simp [get_similar_books, h, hmn]

/-- C2 witness: the unknown-title call on the concrete catalog. -/
theorem c2_witness :
    (load_and_vectorize (some cat3)).isOk = true
    ∧ get_similar_books (some cat3) "zzz" [] 5 = Except.ok [] :=
  ⟨by with_unfolding_all decide,
   c2_notfound_returns_empty_list cat3 "zzz" [] 5 (by with_unfolding_all decide)
     (by with_unfolding_all decide)⟩

/-- C10: `get_similar_books` checks the `top_n` bound only after an
append, so a call with `top_n ≤ 0` whose seed resolves and whose scan
contains at least one candidate that passes the seed-skip and the genre
gate returns exactly one item, not zero; the bound of C7 therefore needs
the precondition `top_n ≥ 1`. -/
theorem c10_nonpositive_topn_one_result (rows : List Record) (title : String)
    (fg : List String) (top_n : Int) (idx : ℕ)
    (hn : top_n ≤ 0)
    (hok : (load_and_vectorize (some rows)).isOk = true)
    (hidx : seedIdx? rows title = some idx)
    (hcand : ∃ i, i < (surviving rows).length ∧ i ≠ idx
      ∧ passes_genre_filter fg (recAt (surviving rows) i).categories = true) :
    (resultList (get_similar_books (some rows) title fg top_n)).length = 1 := by
  rcases load_and_vectorize_some_eq rows with h | h
  · rw [h] at hok
    simp [Except.isOk, Except.toBool] at hok
  · cases hm : seedMatches (surviving rows) title with
    | nil =>
      rw [seedIdx?, hm] at hidx
      simp at hidx
    | cons idx0 rest =>
      have hidx0 : idx0 = idx := by
        rw [seedIdx?, hm] at hidx
        simpa using hidx
      subst hidx0
      have hres : resultList (get_similar_books (some rows) title fg top_n)
          = collect (surviving rows) (simsAgainst (matRows rows) idx0 (surviving rows).length)
              idx0 fg top_n
              (argsortDesc (simsAgainst (matRows rows) idx0 (surviving rows).length)) 0 := by
        simp [resultList, get_similar_books, h, hm, Except.toOption]
      rw [hres]
      apply collect_nonpos_topn _ _ _ _ _ hn
      obtain ⟨i, hilen, hine, hpass⟩ := hcand
      refine ⟨i, ?_, hine, hpass⟩
      apply mem_argsortDesc
      rw [simsAgainst_length]
      exact hilen

/-- C10 witness: a concrete `top_n = 0` call that returns one item. -/
theorem c10_witness :
    (0 : Int) ≤ 0
    ∧ seedIdx? cat3 "The Hobbit" = some 0
    ∧ (resultList (get_similar_books (some cat3) "The Hobbit" [] 0)).length = 1 :=
  ⟨by decide, by with_unfolding_all decide,
   c10_nonpositive_topn_one_result cat3 "The Hobbit" [] 0 0 (by decide)
     (by with_unfolding_all decide) (by with_unfolding_all decide)
     ⟨1, by decide, by decide, by decide⟩⟩
